import Mathlib

/-!
Shallow embedding of the download engine of `titan-storage-backup`
(`backup.go`, current version: the `Downloader` with a worker pool,
per-cid dedup map and area-scoped scheduler; `main.go` wires
`newDownloader(token, areaId, client, 5)`).

Modelling conventions:
* `int64` sizes become `Int` (no overflow is in reach of any claim);
* errors become `Option String` / `Except String _` (`none` / `.ok` = Go `nil`);
* the shared map `dirSize map[string]int64` becomes the association list
  `DirCache` (later bindings shadow earlier ones, like a map update);
* the filesystem and the network are environments passed in: `FS` answers
  `fileutil.Exist`, `os.Mkdir` and the `getDirSize` scan; a candidate's
  behaviour during `download` is a `CandidateOutcome`; the scheduler lookup
  `GetAssetSourceDownloadInfo` is a `SchedulerLookup`;
* functions that mutate shared state return the new state explicitly;
* `download` additionally returns how many candidates were attempted
  (how many `request` calls the loop issued) so that attempt order and
  count are observable; the Go-visible outcome is the other components.
-/

/-- `model.Asset` restricted to the fields `backup.go` touches; `bucket` is
the already-formatted `job.EndTime.Format("20060102")` string. -/
structure Asset where
  cid : String
  totalSize : Int
  bucket : String
  event : Int
  path : String
deriving Repr, DecidableEq

/-- Go constant `maxSingleDirSize = 18 << 30`. -/
def maxSingleDirSize : Int := 18 * 2 ^ 30

/-- Go constant `ErrorEventID = 99`. -/
def ErrorEventID : Int := 99

/-- Go constant `BackupOutPath = "/carfile/titan"`. -/
def BackupOutPath : String := "/carfile/titan"

/-- `filepath.Join(base, name)` for a clean absolute `base` and a relative
`name`, as used with `BackupOutPath`. -/
def joinPath (base name : String) : String := base ++ "/" ++ name

/-- The in-memory `dirSize` map: path to cached cumulative size. -/
abbrev DirCache := List (String × Int)

/-- Map read: the most recent binding for a key wins. -/
def lookupCache : DirCache → String → Option Int
  | [], _ => none
  | (k, v) :: rest, key => if k = key then some v else lookupCache rest key

/-- Map write `m[k] = v`: prepend, shadowing any older binding. -/
def insertCache (c : DirCache) (key : String) (v : Int) : DirCache :=
  (key, v) :: c

/-- `d.dirSize[outPath] += size` with Go's zero value for a missing key. -/
def bumpCache (c : DirCache) (key : String) (v : Int) : DirCache :=
  insertCache c key ((lookupCache c key).getD 0 + v)

/-- The filesystem environment for one allocation attempt: what
`fileutil.Exist` answers, what error (if any) `os.Mkdir` returns, and what
`getDirSize`'s walk returns.  A TOCTOU race is expressed by an `FS` whose
`mkdirErr` reports "file exists" although `existsDir` answered `false`. -/
structure FS where
  existsDir : String → Bool
  mkdirErr : String → Option String
  scanSize : String → Except String Int

/-- `Downloader.createOrGetSize`: if the directory does not exist, return
size 0 together with `os.Mkdir`'s error; otherwise serve the cached size,
scanning the directory once on a cache miss and caching the result. -/
def createOrGetSize (fs : FS) (cache : DirCache) (dir : String) :
    Except String Int × DirCache :=
  if fs.existsDir dir = false then
    match fs.mkdirErr dir with
    | none => (Except.ok 0, cache)
    | some e => (Except.error e, cache)
  else
    match lookupCache cache dir with
    | some size => (Except.ok size, cache)
    | none =>
      match fs.scanSize dir with
      | Except.error e => (Except.error e, cache)
      | Except.ok size => (Except.ok size, insertCache cache dir size)

/-- The suffixes visited by `for c := 'a'; c < 'z'; c++`. -/
def loopChars : List Char :=
  (List.range (Char.toNat 'z' - Char.toNat 'a')).map
    (fun i => Char.ofNat (Char.toNat 'a' + i))

/-- The body of `Downloader.getOutPath`'s loop: `outPath` threads the Go
variable of the same name, so that running out of suffixes returns the
last-examined path with a nil error. -/
def getOutPathGo (fs : FS) (dir : String) :
    List Char → DirCache → String → Except String String × DirCache
  | [], cache, outPath => (Except.ok outPath, cache)
  | c :: rest, cache, _ =>
    let outPath := joinPath BackupOutPath (dir.push c)
    match createOrGetSize fs cache outPath with
    | (Except.error e, cache') => (Except.error e, cache')
    | (Except.ok size, cache') =>
      if size < maxSingleDirSize then (Except.ok outPath, cache')
      else getOutPathGo fs dir rest cache' outPath

/-- `Downloader.getOutPath dir`. -/
def getOutPath (fs : FS) (cache : DirCache) (dir : String) :
    Except String String × DirCache :=
  getOutPathGo fs dir loopChars cache ""

/-- How one candidate of the source list behaves for this fetch:
`requestFail` covers both a connection error and a non-200 response
(`request` returns an error for either); the two `accepted…` cases are an
`os.Create` resp. `io.Copy` failure after the response was accepted. -/
inductive CandidateOutcome where
  | requestFail (e : String)
  | acceptedCreateFail (e : String)
  | acceptedCopyFail (e : String)
  | success
deriving Repr, DecidableEq

/-- Outcome of `scheduler.Api.GetAssetSourceDownloadInfo`. -/
inductive SchedulerLookup where
  | lookupErr (e : String)
  | sources (list : List CandidateOutcome)
deriving Repr, DecidableEq

/-- The candidate loop of `Downloader.download`: a failed `request` logs and
continues; a create/copy failure after acceptance returns that error; the
first full copy bumps `dirSize[outPath]` by the declared size and returns
nil.  Falling off the end of the loop returns nil (the Go code has no
`outErr` accumulator).  The `Nat` counts candidates attempted. -/
def downloadLoop (cache : DirCache) (outPath : String) (size : Int) :
    List CandidateOutcome → Option String × DirCache × Nat
  | [] => (none, cache, 0)
  | CandidateOutcome.requestFail _ :: rest =>
    let r := downloadLoop cache outPath size rest
    (r.1, r.2.1, r.2.2 + 1)
  | CandidateOutcome.acceptedCreateFail e :: _ => (some e, cache, 1)
  | CandidateOutcome.acceptedCopyFail e :: _ => (some e, cache, 1)
  | CandidateOutcome.success :: _ => (none, bumpCache cache outPath size, 1)

/-- `Downloader.download`: lookup error is returned; an empty source list
returns the "CARFile … not found" error naming the cid; otherwise the
candidate loop runs. -/
def download (lookup : SchedulerLookup) (cache : DirCache)
    (outPath cid : String) (size : Int) : Option String × DirCache × Nat :=
  match lookup with
  | SchedulerLookup.lookupErr e => (some e, cache, 0)
  | SchedulerLookup.sources srcs =>
    if srcs.length = 0 then
      (some ("CARFile " ++ cid ++ " not found"), cache, 0)
    else downloadLoop cache outPath size srcs

/-- `Downloader.create`: allocate the output directory, select the area's
scheduler (`schedFound` says whether one matches `d.areaId`), download, and
mutate the job: the error event on download failure, the path on success.
The returned `Asset` is the state of the job object afterwards. -/
def create (fs : FS) (schedFound : Bool) (lookup : SchedulerLookup)
    (cache : DirCache) (job : Asset) : Asset × Option String × DirCache :=
  match getOutPath fs cache job.bucket with
  | (Except.error e, cache') => (job, some e, cache')
  | (Except.ok outPath, cache') =>
    if schedFound then
      match download lookup cache' outPath job.cid job.totalSize with
      | (some e, cache2, _) => ({ job with event := ErrorEventID }, some e, cache2)
      | (none, cache2, _) => ({ job with path := outPath }, none, cache2)
    else (job, some "no scheduler found", cache')

/-- The shared mutable state a worker touches in `jobProcess`: the
`downloading` dedup set and the `dirSize` cache. -/
structure Engine where
  downloading : List String
  dirSize : DirCache

/-- What one `jobProcess` run did, observably: whether the dedup gate
skipped it, whether `create` ran, whether `pushResult` was called, and the
state of the job object at the end (what `pushResult` serialises). -/
structure Trace where
  skipped : Bool
  createCalled : Bool
  reportSent : Bool
  finalJob : Asset
deriving Repr, DecidableEq

/-- The dedup gate at the top of `jobProcess`: under one `dlk` critical
section, test membership and either abort (`none`) or insert and go on. -/
def jobGate (e : Engine) (cid : String) : Option Engine :=
  if cid ∈ e.downloading then none
  else some { e with downloading := cid :: e.downloading }

/-- `Downloader.jobProcess` run to completion: gate, `create`, an
unconditional `pushResult`, the settle sleep, then removal of the cid from
the dedup set. -/
def jobProcess (fs : FS) (schedFound : Bool) (lookup : SchedulerLookup)
    (e : Engine) (asset : Asset) : Engine × Trace :=
  match jobGate e asset.cid with
  | none => (e, ⟨true, false, false, asset⟩)
  | some e1 =>
    match create fs schedFound lookup e1.dirSize asset with
    | (job', _, cache') =>
      ({ downloading := e1.downloading.erase asset.cid, dirSize := cache' },
       ⟨false, true, true, job'⟩)

/-- The concurrency `main.go` wires: `newDownloader(token, areaId, client, 5)`. -/
def wiredConcurrency : Nat := 5

/-- State of the dispatcher/worker-pool machinery of `Downloader.run`:
`queue` is the pending content of `JobQueue` (FIFO), `pending` the asset the
dispatcher has received but not yet paired with a worker, `avail` how many
workers sit in `downWorkerQueue`, and `running` the jobs whose goroutine
currently holds a worker. -/
structure PoolState where
  queue : List String
  pending : Option String
  avail : Nat
  running : List String
deriving Repr, DecidableEq

/-- After `initDownWorker`: `concurrent` workers available, nothing queued
or running. -/
def initPool (n : Nat) : PoolState := ⟨[], none, n, []⟩

/-- One step of the system around `Downloader.run`: a producer enqueues at
the back; the dispatcher receives the head of `JobQueue`; it pairs the
received asset with a worker taken from `downWorkerQueue` and spawns its
goroutine; a goroutine finishes its whole `jobProcess` and only then puts
its worker back. -/
inductive PoolStep : PoolState → PoolState → Prop where
  | enqueue (q : List String) (p : Option String) (av : Nat)
      (run : List String) (a : String) :
      PoolStep ⟨q, p, av, run⟩ ⟨q ++ [a], p, av, run⟩
  | pop (q : List String) (av : Nat) (run : List String) (a : String) :
      PoolStep ⟨a :: q, none, av, run⟩ ⟨q, some a, av, run⟩
  | acquire (q : List String) (av : Nat) (run : List String) (a : String) :
      PoolStep ⟨q, some a, av + 1, run⟩ ⟨q, none, av, a :: run⟩
  | finish (q : List String) (p : Option String) (av : Nat)
      (l1 l2 : List String) (a : String) :
      PoolStep ⟨q, p, av, l1 ++ a :: l2⟩ ⟨q, p, av + 1, l1 ++ l2⟩

/-- States reachable from the freshly initialised pool. -/
inductive PoolReach (n : Nat) : PoolState → Prop where
  | init : PoolReach n (initPool n)
  | step {s s' : PoolState} : PoolReach n s → PoolStep s s' → PoolReach n s'

/-- State of the `async` poller: the `running` flag and everything pushed
into the job queue so far (in order). -/
structure PollerState where
  running : Bool
  enqueued : List Asset
deriving Repr, DecidableEq

/-- What `getJobs()` returned on one tick. -/
inductive FetchResult where
  | fetchErr (e : String)
  | fetchOk (assets : List Asset)

/-- One `ticker.C` iteration of `Downloader.async`: skip if `running`;
otherwise set `running`, fetch, and on error just `continue` (the flag
stays set); an empty batch clears the flag; a non-empty batch is handed to
`Push`, which enqueues every job and then clears the flag. -/
def tick (s : PollerState) (f : FetchResult) : PollerState :=
  if s.running then s
  else
    let s1 : PollerState := { s with running := true }
    match f with
    | FetchResult.fetchErr _ => s1
    | FetchResult.fetchOk assets =>
      if assets.length = 0 then { s1 with running := false }
      else { running := false, enqueued := s1.enqueued ++ assets }

/-- An environment in which every candidate directory exists and every
scan reports exactly the threshold size (so nothing is below threshold). -/
def fullFS : FS :=
  ⟨fun _ => true, fun _ => none, fun _ => Except.ok maxSingleDirSize⟩

/-- An environment reproducing the allocation race: the existence check
answered `false`, but by the time `os.Mkdir` runs another worker has
created the directory, so `Mkdir` fails with EEXIST ("file exists"). -/
def raceFS : FS :=
  ⟨fun _ => false, fun _ => some "file exists", fun _ => Except.ok 0⟩

/-- An environment in which directory creation fails outright (e.g. no
permission), so `getOutPath` errors on the first candidate. -/
def brokenFS : FS :=
  ⟨fun _ => false, fun _ => some "permission denied", fun _ => Except.ok 0⟩

/-- A sample job: cid "cid1", declared size 20 GiB, bucket 20240101,
initial event 0, empty path. -/
def assetA : Asset := ⟨"cid1", 20 * 2 ^ 30, "20240101", 0, ""⟩

/-- A cache in which every cached size is at or over the threshold. -/
def cacheAllFull (cache : DirCache) : Prop :=
  ∀ k v, lookupCache cache k = some v → maxSingleDirSize ≤ v

/-- A filesystem in which every directory exists and every scan succeeds
with a size at or over the threshold. -/
def fsAllFull (fs : FS) : Prop :=
  (∀ d, fs.existsDir d = true) ∧
  (∀ d, ∃ s, fs.scanSize d = Except.ok s ∧ maxSingleDirSize ≤ s)

theorem cacheAllFull_insert {cache : DirCache} (hc : cacheAllFull cache)
    {k : String} {v : Int} (hv : maxSingleDirSize ≤ v) :
    cacheAllFull (insertCache cache k v) := by
  intro k' v' h
  simp only [insertCache, lookupCache] at h
  by_cases hk : k = k'
  · simp only [if_pos hk, Option.some.injEq] at h
    omega
  · rw [if_neg hk] at h
    exact hc _ _ h

/-- Claim C1 evaluation (code bug): the empty source list does produce the
"not found" error naming the cid, but a non-empty list whose only candidate
fails its request makes `download` return nil — success — because the
current code dropped the `outErr` accumulator of the previous version and
ends the loop with `return nil`. -/
theorem c1_download_exhaustion_returns_nil :
    download (SchedulerLookup.sources []) [] "/out" "cid1" 5
      = (some "CARFile cid1 not found", [], 0) ∧
    download (SchedulerLookup.sources [CandidateOutcome.requestFail "connection refused"])
      [] "/out" "cid1" 5 = (none, [], 1) := by
  exact ⟨by decide, by decide⟩

/-- Claim C2: a job whose cid is already in the `downloading` set is
skipped silently — `jobProcess` leaves the engine state untouched (the
other worker's entry stays), calls neither `create` nor `pushResult`; and
for an absent cid, the same critical section that tested membership
inserts the cid before processing proceeds. -/
theorem c2_dedup_gate (fs : FS) (sf : Bool) (lk : SchedulerLookup)
    (e : Engine) (a : Asset) :
    (a.cid ∈ e.downloading →
      jobProcess fs sf lk e a = (e, ⟨true, false, false, a⟩)) ∧
    (a.cid ∉ e.downloading →
      jobGate e a.cid = some { e with downloading := a.cid :: e.downloading }) := by
  constructor
  · intro h
    simp [jobProcess, jobGate, h]
  · intro h
    simp [jobGate, h]

/-- Claim C2 witness: a duplicate of "cid1" is skipped with the engine
unchanged, and a fresh "cid1" is inserted by the gate. -/
theorem c2_dedup_gate_witness :
    jobProcess fullFS true (SchedulerLookup.sources []) ⟨["cid1"], []⟩ assetA
      = (⟨["cid1"], []⟩, ⟨true, false, false, assetA⟩) ∧
    jobGate ⟨[], []⟩ assetA.cid = some ⟨[assetA.cid], []⟩ := by
  constructor
  · exact (c2_dedup_gate fullFS true (SchedulerLookup.sources [])
      ⟨["cid1"], []⟩ assetA).1 (by decide)
  · exact (c2_dedup_gate fullFS true (SchedulerLookup.sources [])
      ⟨[], []⟩ assetA).2 (by decide)

/-- Claim C3 counterexample: with every candidate at threshold, the
allocator returns the path with suffix `y`, not `z`; the loop
`for c := 'a'; c < 'z'; c++` visits 25 suffixes and never visits `z`. -/
theorem c3_counterexample :
    (getOutPath fullFS [] "20240101").1 = Except.ok "/carfile/titan/20240101y" ∧
    "/carfile/titan/20240101y" ≠ "/carfile/titan/20240101z" ∧
    loopChars.length = 25 ∧ 'z' ∉ loopChars := by
  exact ⟨by rfl, by decide, by decide, by decide⟩

theorem getOutPathGo_allFull (fs : FS) (hfs : fsAllFull fs) (dir : String) :
    ∀ (cs : List Char), cs ≠ [] → ∀ (cache : DirCache) (op : String), cacheAllFull cache →
      ∃ c cache', cs.getLast? = some c ∧
        getOutPathGo fs dir cs cache op
          = (Except.ok (joinPath BackupOutPath (dir.push c)), cache') := by
  intro cs
  induction cs with
  | nil => intro h; exact absurd rfl h
  | cons c rest ih =>
    intro _ cache op hc
    have hex := hfs.1 (joinPath BackupOutPath (dir.push c))
    obtain ⟨sizeHit, cacheNext, hstep, hinv⟩ :
        ∃ sizeHit cacheNext,
          createOrGetSize fs cache (joinPath BackupOutPath (dir.push c))
            = (Except.ok sizeHit, cacheNext) ∧
          (maxSingleDirSize ≤ sizeHit ∧ cacheAllFull cacheNext) := by
      cases hl : lookupCache cache (joinPath BackupOutPath (dir.push c)) with
      | some v =>
        refine ⟨v, cache, ?_, hc _ _ hl, hc⟩
        simp [createOrGetSize, hex, hl]
      | none =>
        obtain ⟨s, hscan, hs⟩ := hfs.2 (joinPath BackupOutPath (dir.push c))
        refine ⟨s, insertCache cache (joinPath BackupOutPath (dir.push c)) s, ?_,
          hs, cacheAllFull_insert hc hs⟩
        simp [createOrGetSize, hex, hl, hscan]
    have hnlt : ¬ sizeHit < maxSingleDirSize := not_lt.mpr hinv.1
    cases rest with
    | nil =>
      refine ⟨c, cacheNext, rfl, ?_⟩
      simp [getOutPathGo, hstep, hnlt]
    | cons c2 rest2 =>
      obtain ⟨cl, cache', hlast, heq⟩ :=
        ih (by simp) cacheNext (joinPath BackupOutPath (dir.push c)) hinv.2
      refine ⟨cl, cache', ?_, ?_⟩
      · rw [List.getLast?_cons_cons]
        exact hlast
      · simp only [getOutPathGo, hstep, if_neg hnlt]
        exact heq

/-- Claim C3 amended: the allocator examines the 25 letter suffixes
`a`..`y` in order (the loop condition is `c < 'z'`, so `z` is never
tried), and when every examined candidate is at or over the threshold it
falls back to the last-examined path, the one with suffix `y`. -/
theorem c3_allocator_25_suffixes (fs : FS) (cache : DirCache) (dir : String)
    (hfs : fsAllFull fs) (hc : cacheAllFull cache) :
    loopChars = "abcdefghijklmnopqrstuvwxy".toList ∧
    ∃ cache', getOutPath fs cache dir
      = (Except.ok (joinPath BackupOutPath (dir.push 'y')), cache') := by
  refine ⟨by decide, ?_⟩
  obtain ⟨c, cache', hlast, heq⟩ :=
    getOutPathGo_allFull fs hfs dir loopChars (by decide) cache "" hc
  have hy : loopChars.getLast? = some 'y' := by decide
  rw [hlast] at hy
  obtain rfl : c = 'y' := by injection hy
  exact ⟨cache', heq⟩

/-- Claim C3 amended, witness: in the all-full environment the allocator
for bucket 20240101 returns the `y` directory. -/
theorem c3_allocator_25_suffixes_witness :
    fsAllFull fullFS ∧ cacheAllFull [] ∧
    ∃ cache', getOutPath fullFS [] "20240101"
      = (Except.ok (joinPath BackupOutPath ("20240101".push 'y')), cache') := by
  have h1 : fsAllFull fullFS :=
    ⟨fun _ => rfl, fun _ => ⟨maxSingleDirSize, rfl, le_refl _⟩⟩
  have h2 : cacheAllFull [] := by
    intro k v h
    simp [lookupCache] at h
  exact ⟨h1, h2, (c3_allocator_25_suffixes fullFS [] "20240101" h1 h2).2⟩

/-- Claim C7: candidates are tried strictly in order — a failed request
(connection error or non-200) skips to the next candidate, adding one
attempt; the first candidate that completes a full copy ends the fetch
with success (nil error, size booked, exactly one attempt regardless of
what follows); an `os.Create` or `io.Copy` failure after acceptance aborts
the whole fetch with that error; and in the two-failures-then-success
scenario the fetch succeeds with exactly three attempts in order. -/
theorem c7_failover_order (cache : DirCache) (op : String) (sz : Int) :
    (∀ e rest, downloadLoop cache op sz (CandidateOutcome.requestFail e :: rest)
      = ((downloadLoop cache op sz rest).1, (downloadLoop cache op sz rest).2.1,
         (downloadLoop cache op sz rest).2.2 + 1)) ∧
    (∀ rest, downloadLoop cache op sz (CandidateOutcome.success :: rest)
      = (none, bumpCache cache op sz, 1)) ∧
    (∀ e rest, downloadLoop cache op sz (CandidateOutcome.acceptedCreateFail e :: rest)
      = (some e, cache, 1)) ∧
    (∀ e rest, downloadLoop cache op sz (CandidateOutcome.acceptedCopyFail e :: rest)
      = (some e, cache, 1)) ∧
    (∀ cid e1 e2, download (SchedulerLookup.sources
        [CandidateOutcome.requestFail e1, CandidateOutcome.requestFail e2,
         CandidateOutcome.success]) cache op cid sz
      = (none, bumpCache cache op sz, 3)) := by
  exact ⟨fun _ _ => rfl, fun _ => rfl, fun _ _ => rfl, fun _ _ => rfl,
    fun _ _ _ => rfl⟩

/-- Claim C8 evaluation (code bug): when the existence check misses but the
directory appears before `os.Mkdir` runs (the creation race), the EEXIST
error is propagated: `createOrGetSize` returns it and `getOutPath` fails
the allocation instead of selecting the directory. -/
theorem c8_mkdir_race_error :
    createOrGetSize raceFS [] "/carfile/titan/20240101a"
      = (Except.error "file exists", []) ∧
    (getOutPath raceFS [] "20240101").1 = Except.error "file exists" := by
  exact ⟨by rfl, by rfl⟩

/-- Claim C4 counterexample: with directory creation failing, `create`
returns the allocation error but the job's event field stays at its
initial value 0 — it is not set to `ErrorEventID` — even though the result
report is still sent. -/
theorem c4_counterexample :
    (create brokenFS true (SchedulerLookup.sources []) [] assetA).2.1
      = some "permission denied" ∧
    (jobProcess brokenFS true (SchedulerLookup.sources []) ⟨[], []⟩ assetA).2.reportSent
      = true ∧
    (jobProcess brokenFS true (SchedulerLookup.sources []) ⟨[], []⟩ assetA).2.finalJob.event
      = 0 ∧
    (0 : Int) ≠ ErrorEventID := by
  exact ⟨by rfl, by rfl, by rfl, by decide⟩

/-- Claim C4 amended: every processed job (one that passes the dedup gate)
gets a result report, success or failure, and the reported job is exactly
`create`'s post-state; a download failure marks the job with
`ErrorEventID`, but a directory-allocation failure leaves the job's event
field unchanged (the job is reported unmarked). -/
theorem c4_failures_reported (fs : FS) (sf : Bool) (lk : SchedulerLookup)
    (e : Engine) (a : Asset) (hnotin : a.cid ∉ e.downloading) :
    (jobProcess fs sf lk e a).2.reportSent = true ∧
    (jobProcess fs sf lk e a).2.finalJob = (create fs sf lk e.dirSize a).1 ∧
    (∀ err cache', getOutPath fs e.dirSize a.bucket = (Except.error err, cache') →
      (create fs sf lk e.dirSize a).1.event = a.event ∧
      (create fs sf lk e.dirSize a).2.1 = some err) ∧
    (∀ op cache' err, getOutPath fs e.dirSize a.bucket = (Except.ok op, cache') →
      sf = true →
      (download lk cache' op a.cid a.totalSize).1 = some err →
      (create fs sf lk e.dirSize a).1.event = ErrorEventID ∧
      (create fs sf lk e.dirSize a).2.1 = some err) := by
  refine ⟨?_, ?_, ?_, ?_⟩
  · simp [jobProcess, jobGate, hnotin]
  · simp [jobProcess, jobGate, hnotin]
  · intro err cache' hgo
    simp only [create]
    rw [hgo]
    exact ⟨rfl, rfl⟩
  · intro op cache' err hgo hsf hdl
    subst hsf
    simp only [create]
    rw [hgo]
    rcases hp : download lk cache' op a.cid a.totalSize with ⟨o, c2, n⟩
    rw [hp] at hdl
    simp only [Prod.mk.injEq] at hdl
    simp [hp, hdl]

/-- Claim C4 amended, witness: on the broken filesystem the processed job
is reported and its event field equals its initial value. -/
theorem c4_failures_reported_witness :
    (jobProcess brokenFS true (SchedulerLookup.sources []) ⟨[], []⟩ assetA).2.reportSent
      = true ∧
    (create brokenFS true (SchedulerLookup.sources []) [] assetA).1.event
      = assetA.event := by
  have h := c4_failures_reported brokenFS true (SchedulerLookup.sources [])
    ⟨[], []⟩ assetA (by decide)
  exact ⟨h.1, (h.2.2.1 "permission denied" [] rfl).1⟩

/-- A directory already holding 17 GiB in the cache, under the 18 GiB
threshold. -/
def overshootCache : DirCache := [("/carfile/titan/20240101a", 17 * 2 ^ 30)]

/-- Claim C5: on success the chosen directory's cached size grows by the
job's declared size (the bytes parameter of `download`, not anything
measured from the copy), admission compares only the pre-existing cached
size (the job's size is not even an input of `getOutPath`), and the
concrete 17 GiB / threshold 18 GiB / 20 GiB job scenario ends with the
cache at 37 GiB, over the threshold. -/
theorem c5_declared_size_accounting :
    (∀ (cache : DirCache) (p : String) (sz old : Int) (rest : List CandidateOutcome),
      lookupCache cache p = some old →
      downloadLoop cache p sz (CandidateOutcome.success :: rest)
        = (none, bumpCache cache p sz, 1) ∧
      lookupCache (bumpCache cache p sz) p = some (old + sz)) ∧
    (getOutPath fullFS overshootCache "20240101"
      = (Except.ok "/carfile/titan/20240101a", overshootCache) ∧
     lookupCache
       (downloadLoop overshootCache "/carfile/titan/20240101a" (20 * 2 ^ 30)
         [CandidateOutcome.success]).2.1 "/carfile/titan/20240101a"
       = some (37 * 2 ^ 30) ∧
     maxSingleDirSize < 37 * 2 ^ 30 ∧ (17 : Int) * 2 ^ 30 < maxSingleDirSize) := by
  constructor
  · intro cache p sz old rest h
    constructor
    · rfl
    · simp [bumpCache, insertCache, lookupCache, h]
  · exact ⟨by rfl, by decide, by decide, by decide⟩

/-- Claim C5 witness: the general bump property applied to the 17 GiB
cache and the 20 GiB job. -/
theorem c5_declared_size_accounting_witness :
    downloadLoop overshootCache "/carfile/titan/20240101a" (20 * 2 ^ 30)
        [CandidateOutcome.success]
      = (none, bumpCache overshootCache "/carfile/titan/20240101a" (20 * 2 ^ 30), 1) ∧
    lookupCache (bumpCache overshootCache "/carfile/titan/20240101a" (20 * 2 ^ 30))
        "/carfile/titan/20240101a" = some (17 * 2 ^ 30 + 20 * 2 ^ 30) := by
  exact c5_declared_size_accounting.1 overshootCache "/carfile/titan/20240101a"
    (20 * 2 ^ 30) (17 * 2 ^ 30) [] (by decide)

theorem getOutPathGo_cons (fs : FS) (dir : String) (c : Char) (rest : List Char)
    (cache : DirCache) (op : String) :
    getOutPathGo fs dir (c :: rest) cache op =
      match createOrGetSize fs cache (joinPath BackupOutPath (dir.push c)) with
      | (Except.error e, cache') => (Except.error e, cache')
      | (Except.ok size, cache') =>
        if size < maxSingleDirSize then
          (Except.ok (joinPath BackupOutPath (dir.push c)), cache')
        else getOutPathGo fs dir rest cache' (joinPath BackupOutPath (dir.push c)) :=
  rfl

/-- Claim C6: if the bucket's first candidate (suffix `a`) exists and is
cached at size S below the threshold, the allocator returns it with the
cache untouched; if S is at or over the threshold, it advances to suffix
`b`, and when that directory is absent on disk it creates it (the `Mkdir`
call succeeds, the returned size is the implicit 0) and selects it
immediately. -/
theorem c6_first_candidate_threshold (fs : FS) (cache : DirCache) (dir : String)
    (S : Int)
    (hexists : fs.existsDir (joinPath BackupOutPath (dir.push 'a')) = true)
    (hcached : lookupCache cache (joinPath BackupOutPath (dir.push 'a')) = some S) :
    (S < maxSingleDirSize →
      getOutPath fs cache dir
        = (Except.ok (joinPath BackupOutPath (dir.push 'a')), cache)) ∧
    (maxSingleDirSize ≤ S →
      fs.existsDir (joinPath BackupOutPath (dir.push 'b')) = false →
      fs.mkdirErr (joinPath BackupOutPath (dir.push 'b')) = none →
      getOutPath fs cache dir
        = (Except.ok (joinPath BackupOutPath (dir.push 'b')), cache)) := by
  have hl : loopChars = 'a' :: 'b' :: "cdefghijklmnopqrstuvwxy".toList := by decide
  have hstepA : createOrGetSize fs cache (joinPath BackupOutPath (dir.push 'a'))
      = (Except.ok S, cache) := by
    simp [createOrGetSize, hexists, hcached]
  constructor
  · intro hS
    simp only [getOutPath, hl, getOutPathGo_cons, hstepA]
    rw [if_pos hS]
  · intro hS hb hmk
    have hnlt : ¬ S < maxSingleDirSize := not_lt.mpr hS
    have h0 : (0 : Int) < maxSingleDirSize := by decide
    have hstepB : createOrGetSize fs cache (joinPath BackupOutPath (dir.push 'b'))
        = (Except.ok 0, cache) := by
      simp [createOrGetSize, hb, hmk]
    simp only [getOutPath, hl, getOutPathGo_cons, hstepA]
    rw [if_neg hnlt]
    simp only [getOutPathGo_cons, hstepB]
    rw [if_pos h0]

/-- A filesystem on which only the suffix-`a` directory of bucket 20240101
exists. -/
def onlyAFS : FS :=
  ⟨fun d => d == "/carfile/titan/20240101a", fun _ => none, fun _ => Except.ok 0⟩

/-- Claim C6 witness: with the `a` directory cached at 5 bytes it is
selected; cached at the threshold, the absent `b` directory is created and
selected. -/
theorem c6_first_candidate_threshold_witness :
    getOutPath onlyAFS [("/carfile/titan/20240101a", 5)] "20240101"
      = (Except.ok "/carfile/titan/20240101a", [("/carfile/titan/20240101a", 5)]) ∧
    getOutPath onlyAFS [("/carfile/titan/20240101a", maxSingleDirSize)] "20240101"
      = (Except.ok "/carfile/titan/20240101b",
         [("/carfile/titan/20240101a", maxSingleDirSize)]) := by
  constructor
  · exact (c6_first_candidate_threshold onlyAFS [("/carfile/titan/20240101a", 5)]
      "20240101" 5 (by decide) (by decide)).1 (by decide)
  · exact (c6_first_candidate_threshold onlyAFS
      [("/carfile/titan/20240101a", maxSingleDirSize)] "20240101" maxSingleDirSize
      (by decide) (by decide)).2 (le_refl _) (by decide) rfl

/-- Claim C9: in every reachable state of the dispatcher/worker-pool
machine, the free workers and the running jobs together account for
exactly the constructed concurrency, so at most `n` jobs hold a worker
(execute a download) at once; and the only step that hands the dispatcher
a job takes the head of the FIFO queue.  A slot only returns to the pool
through the `finish` step, after the job's whole `jobProcess` ran. -/
theorem c9_pool_bound (n : Nat) (s : PoolState) (h : PoolReach n s) :
    s.avail + s.running.length = n ∧ s.running.length ≤ n ∧
    (∀ s' a, PoolStep s s' → s.pending = none → s'.pending = some a →
      s.queue = a :: s'.queue) := by
  have hinv : s.avail + s.running.length = n := by
    induction h with
    | init => simp [initPool]
    | step hr hst ih =>
      cases hst with
      | enqueue q p av run a => simpa using ih
      | pop q av run a => simpa using ih
      | acquire q av run a =>
        simp at ih ⊢
        omega
      | finish q p av l1 l2 a =>
        simp [List.length_append] at ih ⊢
        omega
  refine ⟨hinv, by omega, ?_⟩
  intro s' a hst hpn hps
  cases hst with
  | enqueue q p av run b => simp_all
  | pop q av run b =>
    simp at hps
    subst hps
    rfl
  | acquire q av run b => simp_all
  | finish q p av l1 l2 b => simp_all

/-- Claim C9 witness: the invariant instantiated at the freshly
initialised pool with the wired concurrency 5. -/
theorem c9_pool_bound_witness :
    (initPool wiredConcurrency).running.length ≤ wiredConcurrency ∧
    (initPool wiredConcurrency).avail + (initPool wiredConcurrency).running.length
      = wiredConcurrency := by
  have h := c9_pool_bound wiredConcurrency (initPool wiredConcurrency) PoolReach.init
  exact ⟨h.2.1, h.1⟩

/-- Claim C10: a tick that finds the running flag clear and hits a
job-fetch error leaves the flag set and enqueues nothing, and from then on
every later tick — with any fetch outcome — changes nothing at all, so no
new jobs are ever admitted; a tick that finds the flag already set is a
no-op; and the flag is cleared only by a successful fetch, whether it
returns an empty batch or a batch that gets fully enqueued. -/
theorem c10_poller_stuck_after_fetch_error (s : PollerState) (e : String)
    (hs : s.running = false) :
    (tick s (FetchResult.fetchErr e)).running = true ∧
    (tick s (FetchResult.fetchErr e)).enqueued = s.enqueued ∧
    (∀ fl : List FetchResult,
      List.foldl tick (tick s (FetchResult.fetchErr e)) fl
        = tick s (FetchResult.fetchErr e)) ∧
    (∀ (t : PollerState) (f : FetchResult), t.running = true → tick t f = t) ∧
    (tick s (FetchResult.fetchOk [])).running = false ∧
    (∀ a l, (tick s (FetchResult.fetchOk (a :: l))).running = false ∧
      (tick s (FetchResult.fetchOk (a :: l))).enqueued = s.enqueued ++ a :: l) := by
  have hskip : ∀ (t : PollerState) (f : FetchResult), t.running = true → tick t f = t := by
    intro t f h
    simp [tick, h]
  have herr : tick s (FetchResult.fetchErr e) = { s with running := true } := by
    simp [tick, hs]
  have hstuck : ∀ (fl : List FetchResult) (t : PollerState), t.running = true →
      List.foldl tick t fl = t := by
    intro fl
    induction fl with
    | nil => intro t _; rfl
    | cons f fl ih =>
      intro t h
      rw [List.foldl_cons, hskip t f h]
      exact ih t h
  refine ⟨by rw [herr], by rw [herr], ?_, hskip, ?_, ?_⟩
  · intro fl
    exact hstuck fl _ (by rw [herr])
  · simp [tick, hs]
  · intro a l
    constructor
    · simp [tick, hs]
    · simp [tick, hs]

/-- Claim C10 witness: from the idle empty poller, one failed fetch wedges
the flag, and two further ticks (one of them offering a real batch) change
nothing. -/
theorem c10_poller_stuck_witness :
    (tick ⟨false, []⟩ (FetchResult.fetchErr "boom")).running = true ∧
    List.foldl tick (tick ⟨false, []⟩ (FetchResult.fetchErr "boom"))
        [FetchResult.fetchOk [assetA], FetchResult.fetchErr "x"]
      = tick ⟨false, []⟩ (FetchResult.fetchErr "boom") := by
  have h := c10_poller_stuck_after_fetch_error ⟨false, []⟩ "boom" rfl
  exact ⟨h.1, h.2.2.1 [FetchResult.fetchOk [assetA], FetchResult.fetchErr "x"]⟩
